import Mathlib

/- Verification development for the kubevalidator validation-and-localization
   pipeline: the per-file Candidate validator (validator/candidate.go) and the
   check-run aggregation logic (createFinalCheckRun). External collaborators
   (the kubeval engine, the yaml-patch structured-patch engine, the difflib
   line differ and the unified-diff parser) are modelled at their interface
   boundary, as the design document specifies them. -/

namespace KubeValidator

/-! ## Models of the Go standard-library string primitives used by the code -/

/-- Lexicographic order test on character lists; models the Go string order
used by `sort.Strings` (byte-wise lexicographic order, which agrees with
code-point order under UTF-8). -/
def charListLe : List Char → List Char → Bool
  | [], _ => true
  | _ :: _, [] => false
  | a :: xs, b :: ys => if a < b then true else if b < a then false else charListLe xs ys

/-- Strict lexicographic order test on character lists; models Go string `<`. -/
def charListLt : List Char → List Char → Bool
  | [], [] => false
  | [], _ :: _ => true
  | _ :: _, [] => false
  | a :: xs, b :: ys => if a < b then true else if b < a then false else charListLt xs ys

/-- Go string order, non-strict. -/
def strLe (a b : String) : Bool := charListLe a.data b.data

/-- Go string order, strict. -/
def strLt (a b : String) : Bool := charListLt a.data b.data

/-- The non-strict Go string order as a relation, used for `sort.Strings`. -/
def strLeRel (a b : String) : Prop := strLe a b = true

instance : DecidableRel strLeRel := fun a b => instDecidableEqBool (strLe a b) true

/-- Substring occurrence test on character lists. -/
def infixCheck (sub : List Char) : List Char → Bool
  | [] => sub.isEmpty
  | c :: rest => sub.isPrefixOf (c :: rest) || infixCheck sub rest

/-- Model of Go `strings.Contains(s, sub)`. -/
def strContains (s sub : String) : Bool := infixCheck sub.data s.data

/-- Model of Go `strings.TrimPrefix`. -/
def trimPrefixGo (s pre : String) : String :=
  if pre.data.isPrefixOf s.data then String.mk (s.data.drop pre.data.length) else s

/-- Splitting a character list on a separator character (Go `strings.Split`
with a one-character separator; `Split("", sep)` is `[""]`). -/
def splitOnChar (sep : Char) : List Char → List (List Char)
  | [] => [[]]
  | c :: rest =>
    let r := splitOnChar sep rest
    if c = sep then [] :: r
    else
      match r with
      | [] => [[c]]
      | h :: t => (c :: h) :: t

/-- Model of Go `strings.Split(s, sep)` for a one-character separator. -/
def goSplitChar (s : String) (sep : Char) : List String :=
  (splitOnChar sep s.data).map String.mk

/-- Model of Go `strings.Join`. -/
def goJoin : List String → String → String
  | [], _ => ""
  | [s], _ => s
  | s :: rest, sep => s ++ sep ++ goJoin rest sep

/-- Model of Go `strings.ToLower`. -/
def toLowerGo (s : String) : String := String.mk (s.data.map Char.toLower)

/-- Model of Go `strings.Replace(s, old, new, -1)` for one-character
patterns: every occurrence of `c1` is replaced by `c2`. -/
def replaceCharGo (s : String) (c1 c2 : Char) : String :=
  String.mk (s.data.map (fun c => if c = c1 then c2 else c))

/-- Concatenation of a list of strings. -/
def strJoinAll (l : List String) : String := l.foldl (· ++ ·) ""

/-! ## Data model of the validator package -/

/-- The sentinel injected by the Line Localizer (candidate.go, `placeholderString`). -/
def placeholderString : String := "AAA___KUBEVALIDATOR___PLACEHOLDER___AAA"

/-- One hunk of a parsed unified diff, as produced by the go-diff parser
(`diff.Hunk`); `body` is the hunk body split into its lines, as the
`bufio.Scanner` in `detectLineNumbersDefault` reads it. -/
structure Hunk where
  origStartLine : Nat
  origLines : Nat
  newStartLine : Nat
  newLines : Nat
  body : List String
  deriving DecidableEq

/-- A violation reported by the structural validator; the fields are the
projections of `gojsonschema.ResultError` that candidate.go reads:
`Type()`, `String()`, `Context().String()`, and `Details()`. The detail
mapping is modelled as its key list in iteration order (`detailKeys`, the
order a Go `range` over the map happens to produce) together with the
lookup function `detailVal`. -/
structure ResultError where
  typ : String
  str : String
  contextString : String
  detailKeys : List String
  detailVal : String → String

/-- One result of a kubeval invocation (`kubeval.ValidationResult`): the
resource kind, its apiVersion, and the reported violations. -/
structure ValidationResult where
  kind : String
  apiVersion : String
  errors : List ResultError

/-- A schema declaration (`KubeValidatorConfigSchema`), with the fields
candidate.go reads: `Name`, `Version`, `SchemaFork`, `ConfigType`,
`LineNumbers`. -/
structure KubeValidatorConfigSchema where
  name : String
  version : String
  schemaFork : String
  configType : String
  lineNumbers : Bool
  deriving DecidableEq

/-- The package-level default schema (candidate.go, `defaultSchema`). -/
def defaultSchema : KubeValidatorConfigSchema :=
  { name := "", version := "master", schemaFork := "garethr",
    configType := "kubernetes", lineNumbers := false }

/-- Modelled from the spec: the SchemaSpec Resolver (`SchemaLocation` lives in
a config file of this repository that is not among the provided sources). Per
the design document it is a schema source location string built
deterministically from fork identifier + platform variant + version; only its
determinism and dependence on exactly these fields matter here. -/
def SchemaLocation (s : KubeValidatorConfigSchema) : String :=
  s.schemaFork ++ "/" ++ s.configType ++ "/" ++ s.version

/-- The mutable package-global configuration of the kubeval package that
`Validate` writes before each engine invocation: `kubeval.SchemaLocation`,
`kubeval.Version`, `kubeval.Strict`, `kubeval.OpenShift`. -/
structure KubevalState where
  schemaLocation : String
  version : String
  strict : Bool
  openShift : Bool
  deriving DecidableEq

/-- A finished check-run annotation, with the fields candidate.go sets on
`github.CheckRunAnnotation`. `rawDetails` is `none` for the annotations that
do not set `RawDetails`. -/
structure AnnotationRecord where
  path : String
  blobHRef : String
  startLine : Nat
  endLine : Nat
  annotationLevel : String
  title : String
  message : String
  rawDetails : Option String
  deriving DecidableEq

/-- A validation Candidate: raw bytes (absent until hydrated), the file
identity (path and blob URL, the two projections of `github.CommitFile` that
`Validate` reads), and the declared schema list. -/
structure Candidate where
  bytes : Option String
  filename : String
  blobURL : String
  schemas : List KubeValidatorConfigSchema
  deriving DecidableEq

/-- The external collaborators of the Line Localizer, at the interface
boundary the design document gives them: the structured-patch engine (the
yaml-patch `replace`-with-sentinel operation already baked in; `none` is
PathNotFound), and the composition of the difflib unified-diff writer with
the go-diff parser (`none` is a diff-generation or parse failure). -/
structure PatchDiffEnv where
  applyPatch : String → String → Option String
  parseDiff : String → String → Option (List Hunk)

/-- The external collaborators of `Candidate.Validate`: the Line Localizer
collaborators plus the kubeval engine. The engine receives the package-global
configuration as it stands at the moment of the call and returns its results
together with an optional invocation-error string. -/
structure ValidateEnv extends PatchDiffEnv where
  kubeval : KubevalState → String → String → List ValidationResult × Option String

/-! ## Line Localizer (candidate.go, `detectLineNumbersDefault`) -/

/-- Pointer-path computation of `detectLineNumbersDefault`: strip the
`(root).` prefix from the violation context, prepend a dot, and turn every
dot into a slash. -/
def pathFromContext (ctxStr : String) : String :=
  let rootContext := trimPrefixGo ctxStr "(root)."
  let dotted := "." ++ rootContext
  replaceCharGo dotted '.' '/'

/-- Whether a hunk body contains the sentinel (the scanner loop of
`detectLineNumbersDefault`, whose only observable outcome is this flag). -/
def hunkHasSentinel (h : Hunk) : Bool :=
  h.body.any (fun l => strContains l placeholderString)

/-- The hunk scan of `detectLineNumbersDefault` (lines 234-262): the first
hunk whose body contains the sentinel yields
`(NewStartLine, NewStartLine + NewLines)`; otherwise the fallback `(1, 1)`. -/
def scanHunks : List Hunk → Nat × Nat
  | [] => (1, 1)
  | h :: rest => if hunkHasSentinel h then (h.newStartLine, h.newStartLine + h.newLines) else scanHunks rest

/-- The Line Localizer `detectLineNumbersDefault`: build the pointer path,
apply the replace-with-sentinel patch (PathNotFound falls back to `(1, 1)`),
diff original against patched (failure falls back to `(1, 1)`), then scan the
hunks for the sentinel. -/
def detectLineNumbersDefault (env : PatchDiffEnv) (b : String) (e : ResultError) : Nat × Nat :=
  match env.applyPatch (pathFromContext e.contextString) b with
  | none => (1, 1)
  | some patchedBytes =>
    match env.parseDiff b patchedBytes with
    | none => (1, 1)
    | some hunks => scanHunks hunks

/-! ## Concrete model of the line-diff collaborator -/

/-- Modelled from the spec: `difflib.SplitLines`, splitting document bytes
into lines (only line identities and counts matter to the diff model). -/
def splitLines (s : String) : List String := goSplitChar s '\n'

/-- Maximal runs of positionally changed lines between two equal-length line
lists: each run is its 0-based start index with the changed (old, new) pairs. -/
def collectRuns : Nat → List (String × String) → List (Nat × List (String × String))
  | _, [] => []
  | i, (x, y) :: rest =>
    if x = y then collectRuns (i + 1) rest
    else
      match collectRuns (i + 1) rest with
      | (j, run) :: rs =>
        if j = i + 1 then (i, (x, y) :: run) :: rs else (i, [(x, y)]) :: (j, run) :: rs
      | [] => [(i, [(x, y)])]

/-- A changed run rendered as a unified-diff hunk with zero context lines:
1-based start lines, the run length on both sides, and a body holding the
removed lines (prefixed `-`) followed by the added lines (prefixed `+`). -/
def runToHunk : Nat × List (String × String) → Hunk
  | (i, run) =>
    { origStartLine := i + 1, origLines := run.length,
      newStartLine := i + 1, newLines := run.length,
      body := run.map (fun p => "-" ++ p.1) ++ run.map (fun p => "+" ++ p.2) }

/-- Modelled from the spec: the line-diff collaborator (unified diff with a
zero-line context window, composed with the hunk parser) for documents whose
patched form has the same line count — the shape the replace-with-sentinel
policy produces on a scalar value. -/
def diffHunks (a b : List String) : List Hunk :=
  (collectRuns 0 (a.zip b)).map runToHunk

/-! ## Annotation Builder pieces (candidate.go, `Validate` loop bodies) -/

/-- The display-name defaulting of `Validate`: explicit name, else explicit
version, else the literal `master`. -/
def schemaNameOf (s : KubeValidatorConfigSchema) : String :=
  if s.name ≠ "" then s.name else if s.version ≠ "" then s.version else "master"

/-- The detail-string renderer `resultErrorDetailString`: the sorted key list
of the violation's detail mapping. -/
def sortedDetailKeys (e : ResultError) : List String :=
  List.insertionSort strLeRel e.detailKeys

/-- The detail-string renderer `resultErrorDetailString` (candidate.go lines
265-278): the detail mapping as a sorted, newline-delimited bullet list. -/
def resultErrorDetailString (e : ResultError) : String :=
  strJoinAll ((sortedDetailKeys e).map (fun k => "* " ++ k ++ ": " ++ e.detailVal k ++ "\n"))

/-- The violation message of `Validate` (lines 161-174): the raw validator
message when the schema version is unset or `master`; otherwise the raw
message followed by a documentation deep link built from the first two
dot-components of the version, the lower-cased kind, and the apiVersion with
its slash-separated segments reversed and joined by dashes. The Go code takes
`versionComponents[:2]`, which panics when the version has fewer than two
components; `none` models that panic. -/
def violationMessage (version apiVersion kind errStr : String) : Option String :=
  if version = "" ∨ version = "master" then some errStr
  else
    let versionComponents := goSplitChar version '.'
    if 2 ≤ versionComponents.length then
      let apiVersionComponents := (goSplitChar apiVersion '/').reverse
      let apiVersionString := goJoin apiVersionComponents "-"
      some (errStr ++ "; see https://kubernetes.io/docs/reference/generated/kubernetes-api/v"
        ++ goJoin (versionComponents.take 2) "." ++ "/#" ++ toLowerGo kind ++ "-"
        ++ apiVersionString ++ " for more details")
    else none

/-- Deterministic stand-in for the Go struct dump `fmt.Sprintf("%+v", c)` in
the no-bytes annotation; only its determinism in the Candidate matters. -/
def candidateDump (c : Candidate) : String :=
  "&(" ++ c.filename ++ " " ++ c.blobURL ++ ")"

/-- The annotation `Validate` emits when the Candidate holds no bytes
(lines 109-120). -/
def noBytesAnnotationOf (c : Candidate) : AnnotationRecord :=
  { path := c.filename, blobHRef := c.blobURL, startLine := 1, endLine := 1,
    annotationLevel := "failure", title := "Candidate has no bytes?",
    message := candidateDump c, rawDetails := none }

/-- The annotation `Validate` emits when the kubeval invocation itself fails
(lines 124-147); the title names the first result's kind when any result came
back. The Go message quotes apiVersion and kind in single quotation marks,
elided here. -/
def internalErrorAnnotationOf (c : Candidate) (sName : String)
    (schema : KubeValidatorConfigSchema) (results : List ValidationResult)
    (errMsg : String) : AnnotationRecord :=
  match results with
  | r0 :: _ =>
    { path := c.filename, blobHRef := c.blobURL, startLine := 1, endLine := 1,
      annotationLevel := "failure",
      title := "Internal error when validating " ++ r0.kind ++ " against " ++ sName
        ++ " schemas from " ++ SchemaLocation schema,
      message := "This may indicate an incorrect apiVersion or kind field, a missing upstream schema version, or an intermittent error. Details:\n\n"
        ++ errMsg,
      rawDetails := none }
  | [] =>
    { path := c.filename, blobHRef := c.blobURL, startLine := 1, endLine := 1,
      annotationLevel := "failure",
      title := "Internal error when validating against " ++ sName ++ " schemas from "
        ++ SchemaLocation schema,
      message := errMsg, rawDetails := none }

/-- The per-violation annotation of `Validate` (lines 149-186): line numbers
come from the Line Localizer only when the schema's line-number mode is on,
the message from `violationMessage` (whose `none` models the Go panic), the
raw details from the sorted renderer. -/
def processError (env : PatchDiffEnv) (schema : KubeValidatorConfigSchema)
    (sName fileName blobURL b : String) (r : ValidationResult) (e : ResultError) :
    Option AnnotationRecord :=
  let lineRange := if schema.lineNumbers then detectLineNumbersDefault env b e else (1, 1)
  match violationMessage schema.version r.apiVersion r.kind e.str with
  | none => none
  | some msg =>
    some { path := fileName, blobHRef := blobURL,
           startLine := lineRange.1, endLine := lineRange.2,
           annotationLevel := "failure",
           title := "Error validating " ++ r.kind ++ " against " ++ sName ++ " schema",
           message := msg, rawDetails := some (resultErrorDetailString e) }

/-- The inner `for _, error := range result.Errors` loop of `Validate`. -/
def processErrors (env : PatchDiffEnv) (schema : KubeValidatorConfigSchema)
    (sName fileName blobURL b : String) (r : ValidationResult) :
    List ResultError → Option (List AnnotationRecord)
  | [] => some []
  | e :: es =>
    match processError env schema sName fileName blobURL b r e with
    | none => none
    | some a =>
      match processErrors env schema sName fileName blobURL b r es with
      | none => none
      | some rest => some (a :: rest)

/-- The outer `for _, result := range results` loop of `Validate`. -/
def processResults (env : PatchDiffEnv) (schema : KubeValidatorConfigSchema)
    (sName fileName blobURL b : String) :
    List ValidationResult → Option (List AnnotationRecord)
  | [] => some []
  | r :: rs =>
    match processErrors env schema sName fileName blobURL b r r.errors with
    | none => none
    | some anns1 =>
      match processResults env schema sName fileName blobURL b rs with
      | none => none
      | some anns2 => some (anns1 ++ anns2)

/-- The mutation of the package-global kubeval configuration performed at the
top of each schema iteration of `Validate` (lines 85-98): the schema location
is always written, the version only when the schema pins one (an unpinned
schema therefore inherits whatever version the state already holds), strict
is always set, and the OpenShift flag mirrors the openstack config type. -/
def nextKubevalState (g : KubevalState) (schema : KubeValidatorConfigSchema) : KubevalState :=
  let g1 : KubevalState := { g with schemaLocation := SchemaLocation schema }
  let g2 : KubevalState := if schema.version ≠ "" then { g1 with version := schema.version } else g1
  { g2 with strict := true, openShift := schema.configType == "openstack" }

/-- One iteration of the `for _, schema := range c.schemas` loop of
`Validate` (lines 84-187): first the package-global kubeval configuration is
mutated, then the display name is computed, then the no-bytes check, the
engine invocation, and the per-result loops run. The returned state is the
global state as the iteration leaves it. -/
def processSchema (env : ValidateEnv) (c : Candidate) (g : KubevalState)
    (schema : KubeValidatorConfigSchema) :
    Option (List AnnotationRecord) × KubevalState :=
  let g3 : KubevalState := nextKubevalState g schema
  let sName := schemaNameOf schema
  match c.bytes with
  | none => (some [noBytesAnnotationOf c], g3)
  | some docBytes =>
    let out := env.kubeval g3 docBytes c.filename
    match out.2 with
    | some errMsg => (some [internalErrorAnnotationOf c sName schema out.1 errMsg], g3)
    | none => (processResults env.toPatchDiffEnv schema sName c.filename c.blobURL docBytes out.1, g3)

/-- The schema loop of `Validate`, threading the package-global kubeval
state; `none` models a Go panic aborting the whole call. -/
def validateLoop (env : ValidateEnv) (c : Candidate) :
    List KubeValidatorConfigSchema → KubevalState →
    Option (List AnnotationRecord) × KubevalState
  | [], g => (some [], g)
  | s :: rest, g =>
    match processSchema env c g s with
    | (none, g') => (none, g')
    | (some anns, g') =>
      match validateLoop env c rest g' with
      | (none, g'') => (none, g'')
      | (some restAnns, g'') => (some (anns ++ restAnns), g'')

/-- Modelled from the spec: the ordering key of the `Annotations` sort
interface (its `Less` lives in a source file of this repository that is not
among the provided sources) — `(file path, start line, end line)` ascending. -/
def annLeB (a b : AnnotationRecord) : Bool :=
  if strLt a.path b.path then true
  else if strLt b.path a.path then false
  else if a.startLine < b.startLine then true
  else if b.startLine < a.startLine then false
  else Nat.ble a.endLine b.endLine

/-- The final `sort.Sort(annotations)` of `Validate` (line 189). -/
def sortAnnotations (l : List AnnotationRecord) : List AnnotationRecord :=
  List.insertionSort (fun a b => annLeB a b = true) l

/-- `Candidate.Validate` (candidate.go lines 82-191): run every declared
schema against the Candidate, collect the annotations, and sort them. The
returned state is the package-global kubeval state as the call leaves it;
`none` models a Go panic. -/
def Validate (env : ValidateEnv) (c : Candidate) (g : KubevalState) :
    Option (List AnnotationRecord) × KubevalState :=
  match validateLoop env c c.schemas g with
  | (none, g') => (none, g')
  | (some anns, g') => (some (sortAnnotations anns), g')

/-- `NewCandidate` (lines 40-49): an empty schema list is replaced by the
package default; bytes start out absent. -/
def NewCandidate (fileName blobURL : String)
    (schemas : List KubeValidatorConfigSchema) : Candidate :=
  { bytes := none, filename := fileName, blobURL := blobURL,
    schemas := if schemas.isEmpty then [defaultSchema] else schemas }

/-! ## Report Aggregator (createFinalCheckRun) -/

/-- The fixed empty-candidate-set title (`noMatchingFiles`). -/
def noMatchingFiles : String := "No files to validate"

/-- The conclusion computed by `createFinalCheckRun` (part_000 lines 97-120)
from the candidate count and the aggregated annotation count. -/
def checkRunConclusion (numFiles numAnns : Nat) : String :=
  if numFiles = 0 then "neutral"
  else if 0 < numAnns then "failure" else "success"

/-- The title computed by `createFinalCheckRun` (lines 97-121): the fixed
no-matching-files text when no candidate exists, otherwise the pluralized
`N file(s) checked, M error(s)` line. -/
def checkRunText (numFiles numAnns : Nat) : String :=
  if numFiles = 0 then noMatchingFiles
  else
    toString numFiles ++ " " ++ (if numFiles = 1 then "file" else "files")
      ++ " checked, " ++ toString numAnns ++ " "
      ++ (if numAnns = 1 then "error" else "errors")

/-! ## Equivalence of validator outputs up to detail-map iteration order -/

/-- Two violation records carrying the same logical content, possibly
presenting the detail mapping's keys in different iteration orders. -/
def ErrEquiv (e e' : ResultError) : Prop :=
  e.typ = e'.typ ∧ e.str = e'.str ∧ e.contextString = e'.contextString ∧
  e.detailVal = e'.detailVal ∧ e.detailKeys.Perm e'.detailKeys

/-- Two validation results equal up to detail-map iteration order. -/
def ResultEquiv (r r' : ValidationResult) : Prop :=
  r.kind = r'.kind ∧ r.apiVersion = r'.apiVersion ∧ List.Forall₂ ErrEquiv r.errors r'.errors

/-- Two validator environments whose collaborators agree, except that the
engine may present each detail mapping's keys in different iteration orders. -/
def EnvEquiv (env env' : ValidateEnv) : Prop :=
  env.toPatchDiffEnv = env'.toPatchDiffEnv ∧
  ∀ g b f, List.Forall₂ ResultEquiv (env.kubeval g b f).1 (env'.kubeval g b f).1 ∧
    (env.kubeval g b f).2 = (env'.kubeval g b f).2

/-! ## Concrete instances used by witnesses and counterexamples -/

def pdEnvTriv : PatchDiffEnv := { applyPatch := fun _ _ => none, parseDiff := fun _ _ => none }

def exDetailErr : ResultError :=
  { typ := "number_lte", str := "spec.replicas: Must be less than or equal to 5",
    contextString := "(root).spec.replicas", detailKeys := ["max", "found"],
    detailVal := fun k => if k = "max" then "5" else "7" }

def g0 : KubevalState := { schemaLocation := "", version := "", strict := false, openShift := false }

def leakSchemaA : KubeValidatorConfigSchema :=
  { name := "", version := "1.10.0", schemaFork := "garethr", configType := "kubernetes", lineNumbers := false }

def leakSchemaB : KubeValidatorConfigSchema :=
  { name := "pinless", version := "", schemaFork := "garethr", configType := "kubernetes", lineNumbers := false }

def leakErrOf (v : String) : ResultError :=
  { typ := "t", str := "validated with version " ++ v, contextString := "(root).a",
    detailKeys := [], detailVal := fun _ => "" }

def envDep : ValidateEnv :=
  { applyPatch := fun _ _ => none, parseDiff := fun _ _ => none,
    kubeval := fun g _ _ =>
      ([{ kind := "Deployment", apiVersion := "apps/v1", errors := [leakErrOf g.version] }], none) }

def cA : Candidate := { bytes := some "doc", filename := "a.yaml", blobURL := "ua", schemas := [leakSchemaA] }

def cB : Candidate := { bytes := some "doc", filename := "b.yaml", blobURL := "ub", schemas := [leakSchemaB] }

def wSchemaPinned : KubeValidatorConfigSchema :=
  { name := "", version := "1.10.0", schemaFork := "garethr", configType := "kubernetes", lineNumbers := false }

def wSchemaMaster : KubeValidatorConfigSchema :=
  { name := "", version := "master", schemaFork := "garethr", configType := "kubernetes", lineNumbers := false }

def wRes : ValidationResult := { kind := "Deployment", apiVersion := "apps/v1", errors := [exDetailErr] }

def wPinnedAnn : AnnotationRecord :=
  { path := "f.yaml", blobHRef := "url", startLine := 1, endLine := 1,
    annotationLevel := "failure",
    title := "Error validating Deployment against 1.10.0 schema",
    message := "spec.replicas: Must be less than or equal to 5; see https://kubernetes.io/docs/reference/generated/kubernetes-api/v1.10/#deployment-v1-apps for more details",
    rawDetails := some "* found: 7\n* max: 5\n" }

def twoSchemaCand : Candidate := { bytes := none, filename := "d.yaml", blobURL := "u", schemas := [wSchemaMaster, wSchemaPinned] }

def oneSchemaCand : Candidate := { bytes := none, filename := "d.yaml", blobURL := "u", schemas := [wSchemaMaster] }

def c10cand : Candidate := { bytes := some "doc", filename := "c.yaml", blobURL := "u", schemas := [wSchemaMaster] }

def envAlt : ValidateEnv :=
  { applyPatch := fun _ _ => none, parseDiff := fun _ _ => none,
    kubeval := fun _ _ _ => ([], some "schema unreachable") }

def c10ann : AnnotationRecord :=
  { path := "c.yaml", blobHRef := "u", startLine := 1, endLine := 1,
    annotationLevel := "failure", title := "Error validating Deployment against master schema",
    message := "validated with version master", rawDetails := some "" }

def permVal : String → String := fun k => if k = "max" then "5" else "7"

def permErrA : ResultError :=
  { typ := "t", str := "m", contextString := "(root).a", detailKeys := ["max", "found"], detailVal := permVal }

def permErrB : ResultError :=
  { typ := "t", str := "m", contextString := "(root).a", detailKeys := ["found", "max"], detailVal := permVal }

def envPermA : ValidateEnv :=
  { applyPatch := fun _ _ => none, parseDiff := fun _ _ => none,
    kubeval := fun _ _ _ => ([{ kind := "Deployment", apiVersion := "apps/v1", errors := [permErrA] }], none) }

def envPermB : ValidateEnv :=
  { applyPatch := fun _ _ => none, parseDiff := fun _ _ => none,
    kubeval := fun _ _ _ => ([{ kind := "Deployment", apiVersion := "apps/v1", errors := [permErrB] }], none) }

def permCand : Candidate := { bytes := some "doc", filename := "p.yaml", blobURL := "u", schemas := [wSchemaMaster] }

def cDoc : String := "apiVersion: apps/v1\nkind: Deployment\nspec:\n  replicas: two\n  selector: x\n"

def cPatched : String := "apiVersion: apps/v1\nkind: Deployment\nspec:\n  replicas: AAA___KUBEVALIDATOR___PLACEHOLDER___AAA\n  selector: x\n"

def cPdEnv : PatchDiffEnv :=
  { applyPatch := fun pth d => if pth = "/spec/replicas" then (if d = cDoc then some cPatched else none) else none,
    parseDiff := fun a b => some (diffHunks (splitLines a) (splitLines b)) }

def c1Schema : KubeValidatorConfigSchema :=
  { name := "", version := "master", schemaFork := "garethr", configType := "kubernetes", lineNumbers := true }

def cRes : ValidationResult := { kind := "Deployment", apiVersion := "apps/v1", errors := [exDetailErr] }

def cValEnv : ValidateEnv := { toPatchDiffEnv := cPdEnv, kubeval := fun _ _ _ => ([cRes], none) }

def cCand : Candidate :=
  { bytes := some cDoc, filename := "deployment.yaml", blobURL := "u", schemas := [c1Schema] }

/-- The single violation annotation the amended C1 scenario produces: line
range (4, 5), failure severity, the unpinned-schema title and raw message. -/
def c1ExpectedAnn (fileName blobURL kind msg : String) (raw : Option String) : AnnotationRecord :=
  { path := fileName, blobHRef := blobURL, startLine := 4, endLine := 5,
    annotationLevel := "failure",
    title := "Error validating " ++ kind ++ " against " ++ "master" ++ " schema",
    message := msg, rawDetails := raw }

/-! ## Order properties of the Go string order -/

theorem scanHunks_none : ∀ hunks : List Hunk, (∀ hk ∈ hunks, hunkHasSentinel hk = false) →
    scanHunks hunks = (1, 1)
  | [], _ => rfl
  | h :: rest, hall => by
    simp only [scanHunks]
    rw [hall h (List.mem_cons_self h rest), if_neg (by simp)]
    exact scanHunks_none rest (fun hk hm => hall hk (List.mem_cons_of_mem h hm))

theorem processSchema_snd (env : ValidateEnv) (c : Candidate) (g : KubevalState)
    (s : KubeValidatorConfigSchema) : (processSchema env c g s).2 = nextKubevalState g s := by
  cases hb : c.bytes with
  | none => simp only [processSchema, hb]
  | some b =>
    simp only [processSchema, hb]
    cases (env.kubeval (nextKubevalState g s) b c.filename).2 <;> rfl

theorem nextKubevalState_eq (g : KubevalState) (s : KubeValidatorConfigSchema) :
    nextKubevalState g s =
      { schemaLocation := SchemaLocation s,
        version := if s.version ≠ "" then s.version else g.version,
        strict := true,
        openShift := s.configType == "openstack" } := by
  by_cases hv : s.version ≠ ""
  · simp [nextKubevalState, hv]
  · simp [nextKubevalState, hv]

/-- Claim C9 (amended): the schema configuration is not call-scoped — each
schema iteration of Validate writes it into the process-global mutable
kubeval state, which survives the call; a schema without a pinned version
inherits whatever version the global state already holds. -/
theorem C9_global_state_amended (env : ValidateEnv) (c : Candidate) (g : KubevalState)
    (s : KubeValidatorConfigSchema) :
    (processSchema env c g s).2 =
      { schemaLocation := SchemaLocation s,
        version := if s.version ≠ "" then s.version else g.version,
        strict := true,
        openShift := s.configType == "openstack" } :=
  (processSchema_snd env c g s).trans (nextKubevalState_eq g s)

/-- Claim C9 counterexample: validating Candidate cB in the global state left
behind by validating Candidate cA yields different annotations than
validating cB in the pristine state — the second Candidate observes the
first one's pinned schema version, refuting call-scoped configuration. -/
theorem C9_counterexample :
    (Validate envDep cB (Validate envDep cA g0).2).1 ≠ (Validate envDep cB g0).1 := by
  decide

/-- Claim C3 (amended): the conclusion is failure iff both the candidate
count and the annotation count are positive, neutral iff the candidate count
is zero, and success iff candidates exist and no annotation does — the
zero-candidate case wins over a positive annotation count. -/
theorem C3_conclusion_amended : ∀ numFiles numAnns : Nat,
    ((checkRunConclusion numFiles numAnns = "failure") ↔ (0 < numFiles ∧ 0 < numAnns)) ∧
    ((checkRunConclusion numFiles numAnns = "neutral") ↔ numFiles = 0) ∧
    ((checkRunConclusion numFiles numAnns = "success") ↔ (0 < numFiles ∧ numAnns = 0)) := by
  intro numFiles numAnns
  rcases Nat.eq_zero_or_pos numFiles with h | h
  · subst h
    have hc : checkRunConclusion 0 numAnns = "neutral" := rfl
    rw [hc]
    exact ⟨iff_of_false (by decide) (fun hq => Nat.lt_irrefl 0 hq.1),
      iff_of_true rfl rfl,
      iff_of_false (by decide) (fun hq => Nat.lt_irrefl 0 hq.1)⟩
  · have hne : numFiles ≠ 0 := Nat.pos_iff_ne_zero.mp h
    rcases Nat.eq_zero_or_pos numAnns with h2 | h2
    · subst h2
      unfold checkRunConclusion
      rw [if_neg hne, if_neg (Nat.lt_irrefl 0)]
      exact ⟨iff_of_false (by decide) (fun hq => Nat.lt_irrefl 0 hq.2),
        iff_of_false (by decide) hne, iff_of_true rfl ⟨h, rfl⟩⟩
    · have hne2 : numAnns ≠ 0 := Nat.pos_iff_ne_zero.mp h2
      unfold checkRunConclusion
      rw [if_neg hne, if_pos h2]
      exact ⟨iff_of_true rfl ⟨h, h2⟩, iff_of_false (by decide) hne,
        iff_of_false (by decide) (fun hq => hne2 hq.2)⟩

/-- Claim C3 counterexample: at zero candidates and one annotation the
conclusion is neutral, so the claimed equivalence of failure with a positive
annotation count fails. -/
theorem C3_counterexample :
    checkRunConclusion 0 1 = "neutral" ∧ ¬(checkRunConclusion 0 1 = "failure" ↔ 0 < 1) := by
  decide

/-- Claim C6: for every nonzero candidate count the report title is the
pluralized count line, with the word file singular exactly when the file
count is one and the word error singular exactly when the error count is
one, chosen independently. -/
theorem C6_title_pluralization (numFiles numAnns : Nat) (h : 0 < numFiles) :
    checkRunText numFiles numAnns =
      toString numFiles ++ " " ++ (if numFiles = 1 then "file" else "files")
        ++ " checked, " ++ toString numAnns ++ " "
        ++ (if numAnns = 1 then "error" else "errors") := by
  unfold checkRunText
  rw [if_neg (Nat.pos_iff_ne_zero.mp h)]

/-- Witness for C6 at the two count pairs the claim highlights. -/
theorem C6_title_pluralization_witness :
    (0 < 1 ∧ checkRunText 1 1 = "1 file checked, 1 error")
    ∧ (0 < 2 ∧ checkRunText 2 0 = "2 files checked, 0 errors") :=
  ⟨⟨by decide, (C6_title_pluralization 1 1 (by decide)).trans (by decide)⟩,
   ⟨by decide, (C6_title_pluralization 2 0 (by decide)).trans (by decide)⟩⟩

/-- Claim C2: the Line Localizer is total and degrades to the range one-one
in every failure mode — when the structured patch cannot be applied, when
diff generation or parsing fails, and when no parsed hunk body line contains
the sentinel. -/
theorem C2_localizer_fallback (env : PatchDiffEnv) (b : String) (e : ResultError) :
    (env.applyPatch (pathFromContext e.contextString) b = none →
      detectLineNumbersDefault env b e = (1, 1))
    ∧ (∀ patched, env.applyPatch (pathFromContext e.contextString) b = some patched →
        env.parseDiff b patched = none → detectLineNumbersDefault env b e = (1, 1))
    ∧ (∀ patched hunks, env.applyPatch (pathFromContext e.contextString) b = some patched →
        env.parseDiff b patched = some hunks →
        (∀ hk ∈ hunks, ∀ l ∈ hk.body, strContains l placeholderString = false) →
        detectLineNumbersDefault env b e = (1, 1)) := by
  refine ⟨fun h => ?_, fun patched h1 h2 => ?_, fun patched hunks h1 h2 h3 => ?_⟩
  · simp only [detectLineNumbersDefault, h]
  · simp only [detectLineNumbersDefault, h1, h2]
  · simp only [detectLineNumbersDefault, h1, h2]
    exact scanHunks_none hunks (fun hk hm => by
      unfold hunkHasSentinel
      exact List.any_eq_false.mpr (fun x hx => by rw [h3 hk hm x hx]; exact Bool.false_ne_true))

/-- Witness for C2 with a patch collaborator that reports PathNotFound. -/
theorem C2_localizer_fallback_witness :
    pdEnvTriv.applyPatch (pathFromContext exDetailErr.contextString) "doc" = none ∧
    detectLineNumbersDefault pdEnvTriv "doc" exDetailErr = (1, 1) :=
  ⟨rfl, (C2_localizer_fallback pdEnvTriv "doc" exDetailErr).1 rfl⟩

theorem charListLe_total : ∀ xs ys : List Char, charListLe xs ys = true ∨ charListLe ys xs = true
  | [], _ => Or.inl rfl
  | _ :: _, [] => Or.inr rfl
  | x :: xs, y :: ys => by
    rcases lt_trichotomy x y with h | h | h
    · exact Or.inl (by simp [charListLe, h])
    · subst h
      rcases charListLe_total xs ys with ih | ih
      · exact Or.inl (by simp [charListLe, ih])
      · exact Or.inr (by simp [charListLe, ih])
    · exact Or.inr (by simp [charListLe, h])

theorem charListLe_trans : ∀ xs ys zs : List Char, charListLe xs ys = true →
    charListLe ys zs = true → charListLe xs zs = true
  | [], _, _, _, _ => rfl
  | _ :: _, [], _, h1, _ => by simp [charListLe] at h1
  | _ :: _, _ :: _, [], _, h2 => by simp [charListLe] at h2
  | x :: xs, y :: ys, z :: zs, h1, h2 => by
    simp only [charListLe] at h1 h2 ⊢
    rcases lt_trichotomy x y with hxy | hxy | hxy
    · rcases lt_trichotomy y z with hyz | hyz | hyz
      · simp [hxy.trans hyz]
      · subst hyz; simp [hxy]
      · rw [if_neg (asymm hyz), if_pos hyz] at h2; exact absurd h2 (by simp)
    · subst hxy
      rcases lt_trichotomy x z with hxz | hxz | hxz
      · simp [hxz]
      · subst hxz
        simp only [lt_irrefl, if_false] at h1 h2 ⊢
        exact charListLe_trans xs ys zs h1 h2
      · rw [if_neg (asymm hxz), if_pos hxz] at h2; exact absurd h2 (by simp)
    · rw [if_neg (asymm hxy), if_pos hxy] at h1; exact absurd h1 (by simp)

theorem charListLe_antisymm : ∀ xs ys : List Char, charListLe xs ys = true →
    charListLe ys xs = true → xs = ys
  | [], [], _, _ => rfl
  | [], _ :: _, _, h2 => by simp [charListLe] at h2
  | _ :: _, [], h1, _ => by simp [charListLe] at h1
  | x :: xs, y :: ys, h1, h2 => by
    simp only [charListLe] at h1 h2
    rcases lt_trichotomy x y with h | h | h
    · rw [if_neg (asymm h), if_pos h] at h2; exact absurd h2 (by simp)
    · subst h
      simp only [lt_irrefl, if_false] at h1 h2
      rw [charListLe_antisymm xs ys h1 h2]
    · rw [if_neg (asymm h), if_pos h] at h1; exact absurd h1 (by simp)

theorem strLeRel_total (a b : String) : strLeRel a b ∨ strLeRel b a :=
  charListLe_total a.data b.data

theorem strLeRel_trans (a b c : String) : strLeRel a b → strLeRel b c → strLeRel a c :=
  charListLe_trans a.data b.data c.data

theorem strLeRel_antisymm (a b : String) : strLeRel a b → strLeRel b a → a = b := by
  intro h1 h2
  cases a; cases b
  exact congrArg String.mk (charListLe_antisymm _ _ h1 h2)

theorem sortedDetailKeys_sorted (e : ResultError) : List.Sorted strLeRel (sortedDetailKeys e) :=
  @List.sorted_insertionSort String strLeRel _ ⟨strLeRel_total⟩ ⟨strLeRel_trans⟩ e.detailKeys

/-- Claim C7: the rendered raw-detail text is the newline-delimited bullet
list over a sorted permutation of the detail keys (ascending in the Go string
order), and for the mapping with keys max and found the found bullet precedes
the max bullet. -/
theorem C7_detail_rendering_sorted :
    (∀ e : ResultError,
      (sortedDetailKeys e).Perm e.detailKeys ∧ List.Sorted strLeRel (sortedDetailKeys e) ∧
      resultErrorDetailString e =
        strJoinAll ((sortedDetailKeys e).map (fun k => "* " ++ k ++ ": " ++ e.detailVal k ++ "\n")))
    ∧ resultErrorDetailString exDetailErr = "* found: 7\n* max: 5\n" :=
  ⟨fun e => ⟨List.perm_insertionSort strLeRel e.detailKeys, sortedDetailKeys_sorted e, rfl⟩,
   by decide⟩

/-- Claim C5: a violation annotation's message is exactly the raw validator
string when the schema version is unset or master, and otherwise the raw
string followed by the documentation deep link built from the first two
version components, the lower-cased kind, and the apiVersion with its
slash-separated segments reversed and joined by dashes. -/
theorem C5_message_convention (env : PatchDiffEnv) (schema : KubeValidatorConfigSchema)
    (sName fileName blobURL b : String) (r : ValidationResult) (e : ResultError) :
    ((schema.version = "" ∨ schema.version = "master") →
      processError env schema sName fileName blobURL b r e ≠ none ∧
      ∀ a, processError env schema sName fileName blobURL b r e = some a → a.message = e.str)
    ∧ (∀ a, processError env schema sName fileName blobURL b r e = some a →
        schema.version ≠ "" → schema.version ≠ "master" →
        a.message = e.str ++ "; see https://kubernetes.io/docs/reference/generated/kubernetes-api/v"
          ++ goJoin ((goSplitChar schema.version '.').take 2) "." ++ "/#"
          ++ toLowerGo r.kind ++ "-" ++ goJoin ((goSplitChar r.apiVersion '/').reverse) "-"
          ++ " for more details") := by
  constructor
  · intro hv
    have hm : violationMessage schema.version r.apiVersion r.kind e.str = some e.str := by
      unfold violationMessage
      rw [if_pos hv]
    constructor
    · intro hnone
      simp only [processError, hm] at hnone
      exact Option.noConfusion hnone
    · intro a ha
      simp only [processError, hm, Option.some.injEq] at ha
      rw [← ha]
  · intro a ha h1 h2
    have hor : ¬(schema.version = "" ∨ schema.version = "master") := not_or.mpr ⟨h1, h2⟩
    simp only [processError] at ha
    cases hm : violationMessage schema.version r.apiVersion r.kind e.str with
    | none => rw [hm] at ha; exact absurd ha (by simp)
    | some m =>
      rw [hm] at ha
      simp only [Option.some.injEq] at ha
      simp only [violationMessage, if_neg hor] at hm
      by_cases hlen : 2 ≤ (goSplitChar schema.version '.').length
      · rw [if_pos hlen] at hm
        simp only [Option.some.injEq] at hm
        rw [← ha]
        exact hm.symm
      · rw [if_neg hlen] at hm; exact absurd hm (by simp)

/-- Witness for C5 at an unpinned schema and at version 1.10.0. -/
theorem C5_message_convention_witness :
    (processError pdEnvTriv wSchemaMaster "master" "f.yaml" "url" "doc" wRes exDetailErr ≠ none ∧
      ∀ a, processError pdEnvTriv wSchemaMaster "master" "f.yaml" "url" "doc" wRes exDetailErr = some a →
        a.message = exDetailErr.str)
    ∧ wPinnedAnn.message = "spec.replicas: Must be less than or equal to 5; see https://kubernetes.io/docs/reference/generated/kubernetes-api/v1.10/#deployment-v1-apps for more details" :=
  ⟨(C5_message_convention pdEnvTriv wSchemaMaster "master" "f.yaml" "url" "doc" wRes exDetailErr).1
      (Or.inr rfl),
   ((C5_message_convention pdEnvTriv wSchemaPinned "1.10.0" "f.yaml" "url" "doc" wRes exDetailErr).2
      wPinnedAnn (by decide) (by decide) (by decide)).trans (by decide)⟩

theorem processSchema_noBytes (env : ValidateEnv) (c : Candidate) (hb : c.bytes = none)
    (g : KubevalState) (s : KubeValidatorConfigSchema) :
    processSchema env c g s = (some [noBytesAnnotationOf c], nextKubevalState g s) := by
  simp only [processSchema, hb]

theorem validateLoop_noBytes (env : ValidateEnv) (c : Candidate) (hb : c.bytes = none) :
    ∀ (ss : List KubeValidatorConfigSchema) (g : KubevalState),
    (validateLoop env c ss g).1 = some (ss.map (fun _ => noBytesAnnotationOf c))
  | [], _ => rfl
  | s :: rest, g => by
    have ih := validateLoop_noBytes env c hb rest (nextKubevalState g s)
    simp only [validateLoop, processSchema_noBytes env c hb g s]
    cases hrec : validateLoop env c rest (nextKubevalState g s) with
    | mk o g2 =>
      rw [hrec] at ih
      cases o with
      | none => exact absurd ih (by simp)
      | some l =>
        simp only [Option.some.injEq] at ih
        simp [ih]

theorem validateLoop_env_indep (env env' : ValidateEnv) (c : Candidate) (hb : c.bytes = none) :
    ∀ (ss : List KubeValidatorConfigSchema) (g : KubevalState),
    validateLoop env c ss g = validateLoop env' c ss g
  | [], _ => rfl
  | s :: rest, g => by
    simp only [validateLoop, processSchema_noBytes env c hb g s, processSchema_noBytes env' c hb g s]
    rw [validateLoop_env_indep env env' c hb rest (nextKubevalState g s)]

/-- Claim C4 (amended): a Candidate with no hydrated bytes yields one
no-bytes annotation per declared schema spec (so exactly one only in the
single-schema case) and never invokes the validator engine: the outcome is
the same under any engine environment. -/
theorem C4_noBytes_amended (env env' : ValidateEnv) (c : Candidate) (g : KubevalState)
    (hb : c.bytes = none) :
    (∃ l, (Validate env c g).1 = some l ∧ l.length = c.schemas.length ∧
      ∀ a ∈ l, a = noBytesAnnotationOf c)
    ∧ Validate env c g = Validate env' c g := by
  constructor
  · have h := validateLoop_noBytes env c hb c.schemas g
    unfold Validate
    cases hrec : validateLoop env c c.schemas g with
    | mk o g2 =>
      rw [hrec] at h
      cases o with
      | none => exact absurd h (by simp)
      | some l =>
        simp only [Option.some.injEq] at h
        refine ⟨sortAnnotations l, rfl, ?_, ?_⟩
        · calc (sortAnnotations l).length = l.length := List.length_insertionSort _ l
            _ = c.schemas.length := by rw [h]; exact List.length_map _ _
        · intro a ha
          have hx : a ∈ l := (List.perm_insertionSort _ l).mem_iff.mp ha
          rw [h] at hx
          rcases List.mem_map.mp hx with ⟨s2, _, hs2⟩
          exact hs2.symm
  · unfold Validate
    rw [validateLoop_env_indep env env' c hb c.schemas g]

/-- Claim C4 counterexample: a bytes-free Candidate declaring two schema
specs produces two annotations, not one. -/
theorem C4_counterexample :
    ((Validate envDep twoSchemaCand g0).1).map List.length = some 2 ∧ (2 : Nat) ≠ 1 := by
  decide

/-- Witness for C4: a single-schema bytes-free Candidate, validated under two
different engine environments. -/
theorem C4_noBytes_amended_witness :
    oneSchemaCand.bytes = none ∧ Validate envDep oneSchemaCand g0 = Validate envAlt oneSchemaCand g0 :=
  ⟨rfl, (C4_noBytes_amended envDep envAlt oneSchemaCand g0 rfl).2⟩

theorem internalError_lines (c : Candidate) (sName : String) (s : KubeValidatorConfigSchema)
    (results : List ValidationResult) (m : String) :
    (internalErrorAnnotationOf c sName s results m).startLine = 1 ∧
    (internalErrorAnnotationOf c sName s results m).endLine = 1 := by
  cases results <;> exact ⟨rfl, rfl⟩

theorem processError_lines (env : PatchDiffEnv) (schema : KubeValidatorConfigSchema)
    (sName fileName blobURL b : String) (r : ValidationResult) (e : ResultError)
    (hl : schema.lineNumbers = false) :
    ∀ a, processError env schema sName fileName blobURL b r e = some a →
      a.startLine = 1 ∧ a.endLine = 1 := by
  intro a ha
  simp [processError, hl] at ha
  cases hm : violationMessage schema.version r.apiVersion r.kind e.str with
  | none => rw [hm] at ha; exact Option.noConfusion ha
  | some m =>
    rw [hm] at ha
    simp only [Option.some.injEq] at ha
    rw [← ha]
    exact ⟨rfl, rfl⟩

theorem processErrors_lines (env : PatchDiffEnv) (schema : KubeValidatorConfigSchema)
    (sName fileName blobURL b : String) (r : ValidationResult)
    (hl : schema.lineNumbers = false) :
    ∀ (es : List ResultError) (l : List AnnotationRecord),
      processErrors env schema sName fileName blobURL b r es = some l →
      ∀ a ∈ l, a.startLine = 1 ∧ a.endLine = 1
  | [], l, h => by
    simp only [processErrors, Option.some.injEq] at h
    intro a ha
    rw [← h] at ha
    exact absurd ha (List.not_mem_nil a)
  | e :: es, l, h => by
    simp only [processErrors] at h
    cases hpe : processError env schema sName fileName blobURL b r e with
    | none => rw [hpe] at h; exact absurd h (by simp)
    | some a0 =>
      rw [hpe] at h
      cases hrest : processErrors env schema sName fileName blobURL b r es with
      | none => rw [hrest] at h; exact absurd h (by simp)
      | some rest =>
        rw [hrest] at h
        simp only [Option.some.injEq] at h
        intro a ha
        rw [← h] at ha
        rcases List.mem_cons.mp ha with h1 | h1
        · exact h1 ▸ processError_lines env schema sName fileName blobURL b r e hl a0 hpe
        · exact processErrors_lines env schema sName fileName blobURL b r hl es rest hrest a h1

theorem processResults_lines (env : PatchDiffEnv) (schema : KubeValidatorConfigSchema)
    (sName fileName blobURL b : String) (hl : schema.lineNumbers = false) :
    ∀ (rs : List ValidationResult) (l : List AnnotationRecord),
      processResults env schema sName fileName blobURL b rs = some l →
      ∀ a ∈ l, a.startLine = 1 ∧ a.endLine = 1
  | [], l, h => by
    simp only [processResults, Option.some.injEq] at h
    intro a ha
    rw [← h] at ha
    exact absurd ha (List.not_mem_nil a)
  | r :: rs, l, h => by
    simp only [processResults] at h
    cases he : processErrors env schema sName fileName blobURL b r r.errors with
    | none => rw [he] at h; exact absurd h (by simp)
    | some anns1 =>
      rw [he] at h
      cases hrs : processResults env schema sName fileName blobURL b rs with
      | none => rw [hrs] at h; exact absurd h (by simp)
      | some anns2 =>
        rw [hrs] at h
        simp only [Option.some.injEq] at h
        intro a ha
        rw [← h] at ha
        rcases List.mem_append.mp ha with h1 | h1
        · exact processErrors_lines env schema sName fileName blobURL b r hl r.errors anns1 he a h1
        · exact processResults_lines env schema sName fileName blobURL b hl rs anns2 hrs a h1

theorem processSchema_lines (env : ValidateEnv) (c : Candidate) (g : KubevalState)
    (s : KubeValidatorConfigSchema) (hl : s.lineNumbers = false) :
    ∀ l, (processSchema env c g s).1 = some l → ∀ a ∈ l, a.startLine = 1 ∧ a.endLine = 1 := by
  intro l h a ha
  cases hb : c.bytes with
  | none =>
    rw [processSchema_noBytes env c hb g s] at h
    simp only [Option.some.injEq] at h
    rw [← h] at ha
    rcases List.mem_singleton.mp ha with rfl
    exact ⟨rfl, rfl⟩
  | some b =>
    simp only [processSchema, hb] at h
    cases hk : (env.kubeval (nextKubevalState g s) b c.filename).2 with
    | some m =>
      rw [hk] at h
      simp only [Option.some.injEq] at h
      rw [← h] at ha
      rcases List.mem_singleton.mp ha with rfl
      exact internalError_lines c (schemaNameOf s) s _ m
    | none =>
      rw [hk] at h
      simp only [Option.some.injEq] at h
      exact processResults_lines env.toPatchDiffEnv s (schemaNameOf s) c.filename c.blobURL b hl
        ((env.kubeval (nextKubevalState g s) b c.filename).1) l h a ha

theorem validateLoop_lines (env : ValidateEnv) (c : Candidate) :
    ∀ (ss : List KubeValidatorConfigSchema) (g : KubevalState) (l : List AnnotationRecord),
      (∀ s ∈ ss, s.lineNumbers = false) → (validateLoop env c ss g).1 = some l →
      ∀ a ∈ l, a.startLine = 1 ∧ a.endLine = 1
  | [], g, l, _, h => by
    simp only [validateLoop, Option.some.injEq] at h
    intro a ha
    rw [← h] at ha
    exact absurd ha (List.not_mem_nil a)
  | s :: rest, g, l, hall, h => by
    simp only [validateLoop] at h
    cases hps : processSchema env c g s with
    | mk o g' =>
      rw [hps] at h
      cases o with
      | none => exact absurd h (by simp)
      | some anns =>
        simp only [] at h
        cases hrec : validateLoop env c rest g' with
        | mk o2 g2 =>
          rw [hrec] at h
          cases o2 with
          | none => exact absurd h (by simp)
          | some l2 =>
            simp only [Option.some.injEq] at h
            intro a ha
            rw [← h] at ha
            rcases List.mem_append.mp ha with h1 | h1
            · exact processSchema_lines env c g s (hall s (List.mem_cons_self s rest)) anns
                (by rw [hps]) a h1
            · exact validateLoop_lines env c rest g' l2
                (fun s2 hs2 => hall s2 (List.mem_cons_of_mem s hs2)) (by rw [hrec]) a h1

/-- Claim C10: when every declared schema has line-number mode off, every
annotation Validate produces carries the line range one to one. -/
theorem C10_lineNumbers_off (env : ValidateEnv) (c : Candidate) (g : KubevalState)
    (hall : ∀ s ∈ c.schemas, s.lineNumbers = false) (anns : List AnnotationRecord)
    (h : (Validate env c g).1 = some anns) :
    ∀ a ∈ anns, a.startLine = 1 ∧ a.endLine = 1 := by
  unfold Validate at h
  cases hrec : validateLoop env c c.schemas g with
  | mk o g2 =>
    rw [hrec] at h
    cases o with
    | none => exact absurd h (by simp)
    | some l =>
      simp only [Option.some.injEq] at h
      intro a ha
      rw [← h] at ha
      have hx : a ∈ l := (List.perm_insertionSort _ l).mem_iff.mp ha
      exact validateLoop_lines env c c.schemas g l hall (by rw [hrec]) a hx

/-- Witness for C10. -/
theorem C10_lineNumbers_off_witness : c10ann.startLine = 1 ∧ c10ann.endLine = 1 :=
  C10_lineNumbers_off envDep c10cand g0 (by decide) [c10ann] (by decide) c10ann (by decide)

theorem insertionSort_congr_perm {l1 l2 : List String} (hp : l1.Perm l2) :
    List.insertionSort strLeRel l1 = List.insertionSort strLeRel l2 :=
  @List.eq_of_perm_of_sorted String strLeRel ⟨strLeRel_antisymm⟩ _ _
    ((List.perm_insertionSort strLeRel l1).trans (hp.trans (List.perm_insertionSort strLeRel l2).symm))
    (@List.sorted_insertionSort String strLeRel _ ⟨strLeRel_total⟩ ⟨strLeRel_trans⟩ l1)
    (@List.sorted_insertionSort String strLeRel _ ⟨strLeRel_total⟩ ⟨strLeRel_trans⟩ l2)

theorem resultErrorDetailString_congr {e e' : ResultError} (hv : e.detailVal = e'.detailVal)
    (hp : e.detailKeys.Perm e'.detailKeys) :
    resultErrorDetailString e = resultErrorDetailString e' := by
  unfold resultErrorDetailString sortedDetailKeys
  rw [insertionSort_congr_perm hp, hv]

theorem processError_congr (env : PatchDiffEnv) (schema : KubeValidatorConfigSchema)
    (sName fileName blobURL b : String) {r r' : ValidationResult}
    (hk : r.kind = r'.kind) (ha : r.apiVersion = r'.apiVersion)
    {e e' : ResultError} (he : ErrEquiv e e') :
    processError env schema sName fileName blobURL b r e =
    processError env schema sName fileName blobURL b r' e' := by
  obtain ⟨_, hs, hctx, hv, hp⟩ := he
  unfold processError detectLineNumbersDefault
  rw [hk, ha, hs, hctx, resultErrorDetailString_congr hv hp]

theorem processErrors_congr (env : PatchDiffEnv) (schema : KubeValidatorConfigSchema)
    (sName fileName blobURL b : String) {r r' : ValidationResult}
    (hk : r.kind = r'.kind) (ha : r.apiVersion = r'.apiVersion) :
    ∀ {es es'}, List.Forall₂ ErrEquiv es es' →
      processErrors env schema sName fileName blobURL b r es =
      processErrors env schema sName fileName blobURL b r' es' := by
  intro es es' hf
  induction hf with
  | nil => rfl
  | cons h1 _ ih =>
    simp only [processErrors]
    rw [processError_congr env schema sName fileName blobURL b hk ha h1, ih]

theorem internalError_congr (c : Candidate) (sName : String) (s : KubeValidatorConfigSchema)
    (m : String) : ∀ {rs rs'}, List.Forall₂ ResultEquiv rs rs' →
    internalErrorAnnotationOf c sName s rs m = internalErrorAnnotationOf c sName s rs' m := by
  intro rs rs' hf
  cases hf with
  | nil => rfl
  | cons h1 _ =>
    simp only [internalErrorAnnotationOf]
    rw [h1.1]

theorem processResults_congr (env : PatchDiffEnv) (schema : KubeValidatorConfigSchema)
    (sName fileName blobURL b : String) :
    ∀ {rs rs'}, List.Forall₂ ResultEquiv rs rs' →
      processResults env schema sName fileName blobURL b rs =
      processResults env schema sName fileName blobURL b rs' := by
  intro rs rs' hf
  induction hf with
  | nil => rfl
  | cons h1 _ ih =>
    obtain ⟨hk, ha, herrs⟩ := h1
    simp only [processResults]
    rw [processErrors_congr env schema sName fileName blobURL b hk ha herrs, ih]

theorem processSchema_congr {env env' : ValidateEnv} (h : EnvEquiv env env')
    (c : Candidate) (g : KubevalState) (s : KubeValidatorConfigSchema) :
    processSchema env c g s = processSchema env' c g s := by
  obtain ⟨hpd, hkv⟩ := h
  cases hb : c.bytes with
  | none => simp only [processSchema, hb]
  | some b =>
    simp only [processSchema, hb]
    obtain ⟨hres, herr⟩ := hkv (nextKubevalState g s) b c.filename
    rw [← herr]
    cases hk2 : (env.kubeval (nextKubevalState g s) b c.filename).2 with
    | some m =>
      simp only []
      rw [internalError_congr c (schemaNameOf s) s m hres]
    | none =>
      simp only []
      rw [hpd, processResults_congr env'.toPatchDiffEnv s (schemaNameOf s) c.filename c.blobURL b hres]

theorem validateLoop_congr {env env' : ValidateEnv} (h : EnvEquiv env env') (c : Candidate) :
    ∀ (ss : List KubeValidatorConfigSchema) (g : KubevalState),
      validateLoop env c ss g = validateLoop env' c ss g
  | [], _ => rfl
  | s :: rest, g => by
    simp only [validateLoop]
    rw [processSchema_congr h c g s]
    cases hps : processSchema env' c g s with
    | mk o g' =>
      cases o with
      | none => rfl
      | some anns =>
        simp only []
        rw [validateLoop_congr h c rest g']

/-- Claim C8: Validate is a pure function of its inputs, and its output does
not depend on the iteration order in which the validator engine presents each
violation's detail mapping: environments equal up to detail-key order yield
identical results. -/
theorem C8_validate_deterministic {env env' : ValidateEnv} (h : EnvEquiv env env')
    (c : Candidate) (g : KubevalState) :
    Validate env c g = Validate env' c g := by
  unfold Validate
  rw [validateLoop_congr h c c.schemas g]

/-- Witness for C8: two engine environments presenting the same detail map in
the two possible key orders. -/
theorem C8_validate_deterministic_witness :
    Validate envPermA permCand g0 = Validate envPermB permCand g0 :=
  @C8_validate_deterministic envPermA envPermB
    ⟨rfl, fun _ _ _ =>
      ⟨List.Forall₂.cons
        ⟨rfl, rfl, List.Forall₂.cons ⟨rfl, rfl, rfl, rfl, List.Perm.swap "found" "max" []⟩
          List.Forall₂.nil⟩
        List.Forall₂.nil, rfl⟩⟩
    permCand g0

theorem collectRuns_zipSelf_append : ∀ (l : List String) (i : Nat) (r : List (String × String)),
    collectRuns i (l.zip l ++ r) = collectRuns (i + l.length) r
  | [], _, _ => by simp
  | c :: t, i, r => by
    show collectRuns i ((c, c) :: (t.zip t ++ r)) = _
    simp only [collectRuns, if_pos rfl]
    rw [collectRuns_zipSelf_append t (i + 1) r]
    have harith : i + 1 + t.length = i + (c :: t).length := by
      simp only [List.length_cons]
      omega
    rw [harith]
    simp

theorem collectRuns_zipSelf (l : List String) (i : Nat) : collectRuns i (l.zip l) = [] := by
  have h := collectRuns_zipSelf_append l i []
  rw [List.append_nil] at h
  exact h.trans rfl

theorem diffHunks_single (p : List String) (x y : String) (sfx : List String) (hxy : x ≠ y) :
    diffHunks (p ++ x :: sfx) (p ++ y :: sfx) =
      [{ origStartLine := p.length + 1, origLines := 1, newStartLine := p.length + 1,
         newLines := 1, body := ["-" ++ x, "+" ++ y] }] := by
  unfold diffHunks
  rw [List.zip_append rfl]
  show ((collectRuns 0 (p.zip p ++ (x, y) :: sfx.zip sfx)).map runToHunk) = _
  rw [collectRuns_zipSelf_append p 0 ((x, y) :: sfx.zip sfx)]
  simp only [collectRuns, if_neg hxy]
  rw [collectRuns_zipSelf sfx (0 + p.length + 1)]
  simp [runToHunk]

theorem strContains_plusLine (y : String) (h : strContains y placeholderString = true) :
    strContains ("+" ++ y) placeholderString = true := by
  show infixCheck placeholderString.data ('+' :: y.data) = true
  unfold strContains at h
  simp only [infixCheck, h, Bool.or_true]

theorem strContains_dashLine (x : String) (h : strContains x placeholderString = false) :
    strContains ("-" ++ x) placeholderString = false := by
  show infixCheck placeholderString.data ('-' :: x.data) = false
  unfold strContains at h
  have hpre : placeholderString.data.isPrefixOf ('-' :: x.data) = false := rfl
  simp only [infixCheck, h, hpre, Bool.or_false]

/-- Claim C1 (amended): for a document whose addressed field spans exactly
source line 4 (the patched document differs from the original exactly at that
line, the patched line carrying the sentinel), the Line Localizer reports the
range (4, 5) — hunk start line 4, end = start + hunk line count — and
validating the document with one unpinned line-number-enabled schema spec
yields exactly one failure-severity annotation with start line 4. -/
theorem C1_localization_amended (env : ValidateEnv) (c : Candidate) (g : KubevalState)
    (s : KubeValidatorConfigSchema) (doc patched : String) (r : ValidationResult)
    (e : ResultError) (p sfx : List String) (x y : String)
    (hb : c.bytes = some doc)
    (hs : c.schemas = [s])
    (hln : s.lineNumbers = true)
    (hver : s.version = "master")
    (hname : s.name = "")
    (hkv : ∀ g', env.kubeval g' doc c.filename = ([r], none))
    (herr : r.errors = [e])
    (hap : env.applyPatch (pathFromContext e.contextString) doc = some patched)
    (hpd : env.parseDiff doc patched = some (diffHunks (splitLines doc) (splitLines patched)))
    (hdoc : splitLines doc = p ++ x :: sfx)
    (hpatch : splitLines patched = p ++ y :: sfx)
    (hp3 : p.length = 3)
    (hx : strContains x placeholderString = false)
    (hy : strContains y placeholderString = true) :
    detectLineNumbersDefault env.toPatchDiffEnv doc e = (4, 5) ∧
    (Validate env c g).1 =
      some [c1ExpectedAnn c.filename c.blobURL r.kind e.str (some (resultErrorDetailString e))] := by
  have hxy : x ≠ y := fun hq => by
    rw [hq, hy] at hx
    exact absurd hx (by simp)
  have hdet : detectLineNumbersDefault env.toPatchDiffEnv doc e = (4, 5) := by
    simp only [detectLineNumbersDefault, hap, hpd]
    rw [hdoc, hpatch, diffHunks_single p x y sfx hxy]
    simp only [scanHunks, hunkHasSentinel, List.any_cons, List.any_nil,
      strContains_dashLine x hx, strContains_plusLine y hy, Bool.false_or, Bool.or_false,
      if_true]
    rw [hp3]
  have hsn : schemaNameOf s = "master" := by
    unfold schemaNameOf
    rw [hname, hver]
    simp
  have hvm : violationMessage s.version r.apiVersion r.kind e.str = some e.str := by
    unfold violationMessage
    rw [hver, if_pos (Or.inr rfl)]
  have hpe : processError env.toPatchDiffEnv s "master" c.filename c.blobURL doc r e =
      some (c1ExpectedAnn c.filename c.blobURL r.kind e.str (some (resultErrorDetailString e))) := by
    simp only [processError, hln, if_true, hdet, hvm, c1ExpectedAnn]
  have hperrs : processErrors env.toPatchDiffEnv s "master" c.filename c.blobURL doc r [e] =
      some [c1ExpectedAnn c.filename c.blobURL r.kind e.str (some (resultErrorDetailString e))] := by
    simp only [processErrors, hpe]
  have hpres : processResults env.toPatchDiffEnv s "master" c.filename c.blobURL doc [r] =
      some [c1ExpectedAnn c.filename c.blobURL r.kind e.str (some (resultErrorDetailString e))] := by
    simp only [processResults, herr, hperrs, List.append_nil]
  have hps : processSchema env c g s =
      (some [c1ExpectedAnn c.filename c.blobURL r.kind e.str (some (resultErrorDetailString e))],
       nextKubevalState g s) := by
    simp only [processSchema, hb, hkv, hsn, hpres]
  refine ⟨hdet, ?_⟩
  unfold Validate
  rw [hs]
  simp only [validateLoop, hps, List.append_nil]
  rfl

/-- Claim C1 counterexample: in the concrete line-4 scenario the Line
Localizer reports (4, 5), not (4, 4). -/
theorem C1_counterexample :
    detectLineNumbersDefault cPdEnv cDoc exDetailErr = (4, 5) ∧ ((4, 5) : Nat × Nat) ≠ (4, 4) := by
  decide

/-- Witness for the amended C1 at the concrete scenario. -/
theorem C1_localization_amended_witness :
    detectLineNumbersDefault cValEnv.toPatchDiffEnv cDoc exDetailErr = (4, 5) ∧
    (Validate cValEnv cCand g0).1 =
      some [c1ExpectedAnn cCand.filename cCand.blobURL cRes.kind exDetailErr.str
        (some (resultErrorDetailString exDetailErr))] :=
  C1_localization_amended cValEnv cCand g0 c1Schema cDoc cPatched cRes exDetailErr
    ["apiVersion: apps/v1", "kind: Deployment", "spec:"] ["  selector: x", ""]
    "  replicas: two" "  replicas: AAA___KUBEVALIDATOR___PLACEHOLDER___AAA"
    rfl rfl rfl rfl rfl (fun _ => rfl) rfl (by decide) rfl (by decide) (by decide) (by decide)
    (by decide) (by decide)

end KubeValidator
